import Mathlib

/-!
Verification of the email dispatch pipeline in `src/send.ts`
(discord-invite-blast).

The script has three phases, embedded here as pure functions:

* `fetchAllEmails` — paginated fetch of user records from the auth
  directory, collecting non-empty email fields (the `while (true)` loop
  is embedded with an explicit fuel argument; `none` models a run that
  did not finish within the given fuel).  The directory is modelled as
  a function `src : Nat → Except String (Option (List User))` giving,
  for each page index, either an error, a missing (`null`) user array,
  or the list of users on that page.
* `sendBatches` — chunked dispatch of the email list in slices of
  `BATCH_SIZE = 100`, with dry-run support, per-chunk error accounting
  and the inter-batch rate-limit pause.  The external sender
  (`resend.batch.send`) is modelled as an oracle
  `sender : Nat → BatchCallResult` giving the outcome of the batch call
  for each chunk index; the embedding additionally records, as
  observations, the list of batch calls actually issued and the number
  of pauses performed.
* `main` — the top-level control flow: fetch, early return on an empty
  list, dispatch, summary.  Console logging is not modelled; the exit
  code and the printed sent/failed summary are.
-/

/-- A user record returned by the directory: an opaque identity with an
optional email attribute.  JavaScript truthiness of `user.email` is
modelled by treating both `none` and `some ""` as absent. -/
structure User where
  email : Option String
deriving DecidableEq

/-- A fully rendered email message.  The source field `from` is a Lean
keyword, so it is called `fromAddr` here; `to` likewise becomes `toAddr`. -/
structure EmailMessage where
  fromAddr : String
  toAddr : String
  subject : String
  html : String
deriving DecidableEq

/-- `BATCH_SIZE = 100` (Resend max per batch call). -/
def BATCH_SIZE : Nat := 100

/-- `perPage = 1000`, the page size requested from the directory. -/
def perPage : Nat := 1000

/-- `buildEmail(to)` from `src/send.ts`: the fixed template, rendered for
one recipient.  The configured `FROM_EMAIL` environment value is passed
explicitly. -/
def buildEmail (fromEmail : String) (toAddr : String) : EmailMessage :=
  { fromAddr := fromEmail
    toAddr := toAddr
    subject := "hi from jia :3"
    html := "\n      <div style=\"font-family: sans-serif; max-width: 600px; margin: 0 auto; padding: 40px 20px; line-height: 1.7; color: #333;\">\n        <p>hey sup! you might remember me from sprint.dev or such. i\x27m emailing you with an invite to the invite-only discord for people who have gone to hackathons or shipped projects.</p>\n        <p>btw if you are receiving this email, at some point i have personally reviewed your profile!</p>\n        <p>this link is only for you. do not share, as we are keeping the quality of the discord members high (unless you are referring someone actively building projects)</p>\n        <p>if you want to share with someone who\x27s actively building, here\x27s the link as text: <a href=\"https://discord.gg/5sdGUP4pG5\">https://discord.gg/5sdGUP4pG5</a></p>\n        <a href=\"https://discord.gg/5sdGUP4pG5\"\n           style=\"display: inline-block; background: #5865F2; color: white; padding: 14px 28px;\n                  border-radius: 8px; text-decoration: none; font-weight: bold; font-size: 16px; margin: 8px 0 16px;\">\n          join the discord\n        </a>\n        <p>okay bai. p.s. there are founders of companies you know in the discord which you may see around</p>\n      </div>\n    " }

/-- The `for (const user of users) if (user.email) emails.push(user.email)`
loop body: the non-empty email fields of a page, in page order. -/
def extractEmails (users : List User) : List String :=
  users.filterMap fun u =>
    match u.email with
    | some e => if e = "" then none else some e
    | none => none

/-- Observable outcome of `fetchAllEmails`: the returned email list or the
thrown error message, together with the page indices requested, in
order. -/
structure FetchOutcome where
  result : Except String (List String)
  requests : List Nat

/-- The `while (true)` pagination loop of `fetchAllEmails`, with explicit
fuel.  Matches the source: an error from the page call throws; a missing
or empty user array stops before collecting; a short page (fewer than
`perPage` users) stops after collecting; otherwise the page index is
incremented and the loop continues. -/
def fetchAllEmailsGo (src : Nat → Except String (Option (List User))) :
    Nat → Nat → List String → List Nat → Option FetchOutcome
  | 0, _, _, _ => none
  | fuel + 1, page, acc, reqs =>
    match src page with
    | Except.error msg =>
      some { result := Except.error
               ("Supabase auth fetch failed at page " ++ toString page ++ ": " ++ msg)
             requests := reqs ++ [page] }
    | Except.ok none => some { result := Except.ok acc, requests := reqs ++ [page] }
    | Except.ok (some users) =>
      if users.length = 0 then
        some { result := Except.ok acc, requests := reqs ++ [page] }
      else
        let acc2 := acc ++ extractEmails users
        if users.length < perPage then
          some { result := Except.ok acc2, requests := reqs ++ [page] }
        else
          fetchAllEmailsGo src fuel (page + 1) acc2 (reqs ++ [page])

/-- `fetchAllEmails()` from `src/send.ts`: start at page 1 with an empty
accumulator. -/
def fetchAllEmails (src : Nat → Except String (Option (List User)))
    (fuel : Nat) : Option FetchOutcome :=
  fetchAllEmailsGo src fuel 1 [] []

/-- Outcome of one `resend.batch.send` call: a success, a structured error
result, or a raised fault (the `catch` branch). -/
inductive BatchCallResult where
  | ok
  | apiError (msg : String)
  | thrown (msg : String)
deriving DecidableEq

/-- Result of `sendBatches`: the final counters together with the
observable external behaviour (batch calls issued in order, and the
number of inter-batch pauses performed). -/
structure SendResult where
  sent : Nat
  failed : Nat
  calls : List (List EmailMessage)
  pauses : Nat
deriving DecidableEq

/-- The `for (let i = 0; i < total; i += BATCH_SIZE)` loop of
`sendBatches`, recursing on the remaining suffix of the email list with
explicit fuel (`fuel ≥` remaining length suffices, since each iteration
consumes at least one element).  `k` is the 0-based chunk index.  The
slice `emails.slice(i, i + BATCH_SIZE)` of the remaining list
`e :: es` is `e :: es.take (BATCH_SIZE - 1)`, and the next remaining
suffix is `es.drop (BATCH_SIZE - 1)`.  The dry-run branch counts the
chunk as sent and `continue`s, skipping both the send call and the
rate-limit pause; otherwise the chunk is submitted once, accounted
whole to `sent` or `failed`, and the pause runs exactly when
`i + BATCH_SIZE < total`, i.e. when the next remaining suffix is
non-empty. -/
def sendBatchesGo (fromEmail : String) (dryRun : Bool)
    (sender : Nat → BatchCallResult) :
    Nat → List String → Nat → SendResult
  | 0, _, _ => { sent := 0, failed := 0, calls := [], pauses := 0 }
  | _ + 1, [], _ => { sent := 0, failed := 0, calls := [], pauses := 0 }
  | fuel + 1, e :: es, k =>
    let batch := e :: es.take (BATCH_SIZE - 1)
    let rest := es.drop (BATCH_SIZE - 1)
    let tail := sendBatchesGo fromEmail dryRun sender fuel rest (k + 1)
    match dryRun with
    | true =>
      { sent := batch.length + tail.sent, failed := tail.failed
        calls := tail.calls, pauses := tail.pauses }
    | false =>
      let p : Nat := match rest with | [] => 0 | _ :: _ => 1
      match sender k with
      | BatchCallResult.ok =>
        { sent := batch.length + tail.sent, failed := tail.failed
          calls := batch.map (buildEmail fromEmail) :: tail.calls
          pauses := p + tail.pauses }
      | BatchCallResult.apiError _ =>
        { sent := tail.sent, failed := batch.length + tail.failed
          calls := batch.map (buildEmail fromEmail) :: tail.calls
          pauses := p + tail.pauses }
      | BatchCallResult.thrown _ =>
        { sent := tail.sent, failed := batch.length + tail.failed
          calls := batch.map (buildEmail fromEmail) :: tail.calls
          pauses := p + tail.pauses }

/-- `sendBatches(emails)` from `src/send.ts`. -/
def sendBatches (fromEmail : String) (dryRun : Bool)
    (sender : Nat → BatchCallResult) (emails : List String) : SendResult :=
  sendBatchesGo fromEmail dryRun sender emails.length emails 0

/-- The sequence of consecutive slices `emails.slice(i, i + b)` taken by
the dispatch loop, with the same fuel discipline as `sendBatchesGo`. -/
def chunksOfGo (b : Nat) : Nat → List String → List (List String)
  | 0, _ => []
  | _ + 1, [] => []
  | fuel + 1, x :: xs => (x :: xs.take (b - 1)) :: chunksOfGo b fuel (xs.drop (b - 1))

/-- The chunks of a list under batch size `b`. -/
def chunksOf (b : Nat) (l : List String) : List (List String) :=
  chunksOfGo b l.length l

/-- Whether chunk `k` is accounted to `sent` (dry-run, or the sender call
for chunk `k` succeeded); otherwise its whole length goes to `failed`. -/
def chunkSent (dryRun : Bool) (sender : Nat → BatchCallResult) (k : Nat) : Bool :=
  dryRun ||
    (match sender k with
     | BatchCallResult.ok => true
     | BatchCallResult.apiError _ => false
     | BatchCallResult.thrown _ => false)

/-- Total length of the chunks accounted to `sent`, starting at chunk
index `k`. -/
def sentOfChunks (dryRun : Bool) (sender : Nat → BatchCallResult) :
    List (List String) → Nat → Nat
  | [], _ => 0
  | c :: cs, k =>
    (if chunkSent dryRun sender k then c.length else 0) +
      sentOfChunks dryRun sender cs (k + 1)

/-- Total length of the chunks accounted to `failed`, starting at chunk
index `k`. -/
def failedOfChunks (dryRun : Bool) (sender : Nat → BatchCallResult) :
    List (List String) → Nat → Nat
  | [], _ => 0
  | c :: cs, k =>
    (if chunkSent dryRun sender k then 0 else c.length) +
      failedOfChunks dryRun sender cs (k + 1)

/-- Observable outcome of `main`: the process exit code, whether the
dispatcher (`sendBatches`) was invoked, and the final sent/failed
summary printed to standard output (`none` when no such summary is
printed). -/
structure MainResult where
  exitCode : Nat
  dispatched : Bool
  summary : Option (Nat × Nat)
deriving DecidableEq

/-- `main()` from `src/send.ts` (named `mainRun` since a Lean `main` must
be an IO entry point) together with the top-level
`main().catch(...)` handler: a fetch error is caught and the process
exits with status 1; an empty email list returns early (exit 0, no
sent/failed summary); otherwise the dispatcher runs and the summary is
printed (exit 0). -/
def mainRun (fromEmail : String) (dryRun : Bool)
    (sender : Nat → BatchCallResult)
    (src : Nat → Except String (Option (List User))) (fuel : Nat) :
    Option MainResult :=
  match fetchAllEmails src fuel with
  | none => none
  | some o =>
    match o.result with
    | Except.error _ => some { exitCode := 1, dispatched := false, summary := none }
    | Except.ok emails =>
      if emails.length = 0 then
        some { exitCode := 0, dispatched := false, summary := none }
      else
        let r := sendBatches fromEmail dryRun sender emails
        some { exitCode := 0, dispatched := true, summary := some (r.sent, r.failed) }

/-- A directory source built from a finite list of pages: page `q`
(1-based) returns the `q`-th entry of `ps`, and every page beyond the
list is empty.  Used to state the pagination contract. -/
def srcOfPages (ps : List (List User)) (page : Nat) :
    Except String (Option (List User)) :=
  Except.ok (some (ps.getD (page - 1) []))

/-- Modelled from the spec (section 4.1): the pages the fetcher consumes —
pages are taken in order until the first page that is empty (excluded)
or shorter than `perPage` (included). -/
def specFetchedPages : List (List User) → List (List User)
  | [] => []
  | p :: ps =>
    if p.length = 0 then []
    else if p.length < perPage then [p]
    else p :: specFetchedPages ps

/-- Modelled from the spec (section 4.1): the number of page requests the
fetcher issues against `srcOfPages ps` — one per fetched full page,
plus the final request that observes a short or empty page. -/
def specRequests : List (List User) → Nat
  | [] => 1
  | p :: ps =>
    if p.length = 0 then 1
    else if p.length < perPage then 1
    else 1 + specRequests ps

theorem chunksOfGo_nil (b fuel : Nat) : chunksOfGo b fuel [] = [] := by
  cases fuel <;> rfl

theorem chunksOfGo_ne_nil (b fuel : Nat) (x : String) (xs : List String)
    (h : 1 ≤ fuel) : chunksOfGo b fuel (x :: xs) ≠ [] := by
  cases fuel with
  | zero => omega
  | succ n => simp [chunksOfGo]

theorem sendBatchesGo_nil (f : String) (d : Bool) (s : Nat → BatchCallResult)
    (fuel k : Nat) :
    sendBatchesGo f d s fuel [] k = { sent := 0, failed := 0, calls := [], pauses := 0 } := by
  cases fuel <;> rfl

theorem chunksOfGo_flatten (b : Nat) :
    ∀ (fuel : Nat) (l : List String), l.length ≤ fuel →
      (chunksOfGo b fuel l).flatten = l := by
  intro fuel
  induction fuel with
  | zero =>
    intro l h
    have hl : l = [] := List.eq_nil_of_length_eq_zero (Nat.le_zero.mp h)
    subst hl
    rfl
  | succ n ih =>
    intro l h
    cases l with
    | nil => rfl
    | cons x xs =>
      simp only [chunksOfGo, List.flatten_cons]
      rw [ih (xs.drop (b - 1)) (by simp only [List.length_drop]; simp only [List.length_cons] at h; omega)]
      simp [List.take_append_drop]

theorem chunksOfGo_length (fuel : Nat) :
    ∀ (l : List String), l.length ≤ fuel →
      (chunksOfGo 100 fuel l).length = (l.length + 99) / 100 := by
  induction fuel with
  | zero =>
    intro l h
    have hl : l = [] := List.eq_nil_of_length_eq_zero (Nat.le_zero.mp h)
    subst hl
    rfl
  | succ n ih =>
    intro l h
    cases l with
    | nil => rfl
    | cons x xs =>
      simp only [chunksOfGo, List.length_cons]
      rw [ih (xs.drop (100 - 1)) (by simp only [List.length_drop]; simp only [List.length_cons] at h; omega)]
      simp only [List.length_drop, List.length_cons] at h ⊢
      omega

theorem chunksOfGo_size_le (fuel : Nat) :
    ∀ l : List String,
      ((chunksOfGo 100 fuel l).all fun c => decide (c.length ≤ 100)) = true := by
  induction fuel with
  | zero => intro l; rfl
  | succ n ih =>
    intro l
    cases l with
    | nil => rfl
    | cons x xs =>
      simp only [chunksOfGo, List.all_cons, Bool.and_eq_true, decide_eq_true_eq]
      refine ⟨?_, ih _⟩
      simp only [List.length_cons, List.length_take]
      omega

theorem chunksOfGo_dropLast_full (fuel : Nat) :
    ∀ l : List String, l.length ≤ fuel →
      (((chunksOfGo 100 fuel l).dropLast).all fun c => decide (c.length = 100)) = true := by
  induction fuel with
  | zero => intro l _; rfl
  | succ n ih =>
    intro l h
    cases l with
    | nil => rfl
    | cons x xs =>
      by_cases hrest : xs.drop (100 - 1) = []
      · simp [chunksOfGo, hrest, chunksOfGo_nil]
      · have hxs : 99 < xs.length := by
          by_contra hle
          push_neg at hle
          exact hrest (List.drop_eq_nil_iff.mpr (by omega))
        have hne : chunksOfGo 100 n (xs.drop (100 - 1)) ≠ [] := by
          cases hd : xs.drop (100 - 1) with
          | nil => exact absurd hd hrest
          | cons y ys =>
            have hlen : (xs.drop (100 - 1)).length ≤ n := by
              simp only [List.length_drop]
              simp only [List.length_cons] at h
              omega
            rw [hd] at hlen
            simp only [List.length_cons] at hlen
            exact chunksOfGo_ne_nil 100 n y ys (by omega)
        simp only [chunksOfGo]
        rw [List.dropLast_cons_of_ne_nil hne]
        simp only [List.all_cons, Bool.and_eq_true, decide_eq_true_eq]
        refine ⟨?_, ih _ (by simp only [List.length_drop]; simp only [List.length_cons] at h; omega)⟩
        simp only [List.length_cons, List.length_take]
        omega


theorem sendBatchesGo_sum (f : String) (d : Bool) (s : Nat → BatchCallResult)
    (fuel : Nat) :
    ∀ (rem : List String) (k : Nat), rem.length ≤ fuel →
      (sendBatchesGo f d s fuel rem k).sent + (sendBatchesGo f d s fuel rem k).failed
        = rem.length := by
  induction fuel with
  | zero =>
    intro rem k h
    have hl : rem = [] := List.eq_nil_of_length_eq_zero (Nat.le_zero.mp h)
    subst hl
    rfl
  | succ n ih =>
    intro rem k h
    cases rem with
    | nil => rfl
    | cons e es =>
      have hlen : (es.drop (BATCH_SIZE - 1)).length ≤ n := by
        simp only [List.length_drop]
        simp only [List.length_cons] at h
        omega
      have htail := ih (es.drop (BATCH_SIZE - 1)) (k + 1) hlen
      cases d with
      | true =>
        simp only [sendBatchesGo]
        simp only [List.length_cons, List.length_take, List.length_drop] at htail ⊢
        simp only [BATCH_SIZE] at htail ⊢
        omega
      | false =>
        simp only [sendBatchesGo]
        cases hs : s k <;>
          simp only [hs] <;>
          simp only [List.length_cons, List.length_take, List.length_drop] at htail ⊢ <;>
          simp only [BATCH_SIZE] at htail ⊢ <;>
          omega

theorem sendBatchesGo_sent_eq (f : String) (d : Bool) (s : Nat → BatchCallResult)
    (fuel : Nat) :
    ∀ (rem : List String) (k : Nat),
      (sendBatchesGo f d s fuel rem k).sent
        = sentOfChunks d s (chunksOfGo BATCH_SIZE fuel rem) k := by
  induction fuel with
  | zero => intro rem k; rfl
  | succ n ih =>
    intro rem k
    cases rem with
    | nil => rfl
    | cons e es =>
      cases d with
      | true =>
        simp only [sendBatchesGo, chunksOfGo, sentOfChunks, chunkSent, Bool.true_or, if_true]
        rw [ih]
      | false =>
        cases hs : s k <;>
          simp [sendBatchesGo, chunksOfGo, sentOfChunks, chunkSent, hs] <;>
          rw [ih]

theorem sendBatchesGo_failed_eq (f : String) (d : Bool) (s : Nat → BatchCallResult)
    (fuel : Nat) :
    ∀ (rem : List String) (k : Nat),
      (sendBatchesGo f d s fuel rem k).failed
        = failedOfChunks d s (chunksOfGo BATCH_SIZE fuel rem) k := by
  induction fuel with
  | zero => intro rem k; rfl
  | succ n ih =>
    intro rem k
    cases rem with
    | nil => rfl
    | cons e es =>
      cases d with
      | true =>
        simp only [sendBatchesGo, chunksOfGo, failedOfChunks, chunkSent, Bool.true_or, if_true]
        rw [ih]
        omega
      | false =>
        cases hs : s k <;>
          simp [sendBatchesGo, chunksOfGo, failedOfChunks, chunkSent, hs] <;>
          rw [ih]

theorem sendBatchesGo_calls_eq (f : String) (s : Nat → BatchCallResult)
    (fuel : Nat) :
    ∀ (rem : List String) (k : Nat),
      (sendBatchesGo f false s fuel rem k).calls
        = (chunksOfGo BATCH_SIZE fuel rem).map (fun c => c.map (buildEmail f)) := by
  induction fuel with
  | zero => intro rem k; rfl
  | succ n ih =>
    intro rem k
    cases rem with
    | nil => rfl
    | cons e es =>
      simp only [sendBatchesGo, chunksOfGo, List.map_cons]
      cases hs : s k <;> simp only [hs] <;> rw [ih]

theorem sendBatchesGo_dry (f : String) (s : Nat → BatchCallResult) (fuel : Nat) :
    ∀ (rem : List String) (k : Nat), rem.length ≤ fuel →
      sendBatchesGo f true s fuel rem k
        = { sent := rem.length, failed := 0, calls := [], pauses := 0 } := by
  induction fuel with
  | zero =>
    intro rem k h
    have hl : rem = [] := List.eq_nil_of_length_eq_zero (Nat.le_zero.mp h)
    subst hl
    rfl
  | succ n ih =>
    intro rem k h
    cases rem with
    | nil => rfl
    | cons e es =>
      simp only [sendBatchesGo]
      rw [ih (es.drop (BATCH_SIZE - 1)) (k + 1)
        (by simp only [List.length_drop]; simp only [List.length_cons] at h; omega)]
      simp only [SendResult.mk.injEq, List.length_cons, List.length_take, List.length_drop,
        BATCH_SIZE, and_true]
      omega

theorem sendBatchesGo_pauses (f : String) (s : Nat → BatchCallResult) (fuel : Nat) :
    ∀ (rem : List String) (k : Nat), rem.length ≤ fuel →
      (sendBatchesGo f false s fuel rem k).pauses
        = (chunksOfGo BATCH_SIZE fuel rem).length - 1 := by
  induction fuel with
  | zero =>
    intro rem k h
    have hl : rem = [] := List.eq_nil_of_length_eq_zero (Nat.le_zero.mp h)
    subst hl
    rfl
  | succ n ih =>
    intro rem k h
    cases rem with
    | nil => rfl
    | cons e es =>
      simp only [sendBatchesGo, chunksOfGo, List.length_cons]
      cases hd : es.drop (BATCH_SIZE - 1) with
      | nil =>
        simp only [chunksOfGo_nil, sendBatchesGo_nil, List.length_nil]
        cases s k <;> rfl
      | cons y ys =>
        have hlen : (es.drop (BATCH_SIZE - 1)).length ≤ n := by
          simp only [List.length_drop]
          simp only [List.length_cons] at h
          omega
        rw [hd] at hlen
        have h1 : 1 ≤ n := by
          simp only [List.length_cons] at hlen
          omega
        have hpos : 0 < (chunksOfGo BATCH_SIZE n (y :: ys)).length :=
          List.length_pos.mpr (chunksOfGo_ne_nil BATCH_SIZE n y ys h1)
        have htail := ih (y :: ys) (k + 1) hlen
        cases s k <;> simp only [htail] <;> omega

theorem sentOfChunks_congr (d : Bool) (s s' : Nat → BatchCallResult)
    (cs : List (List String)) :
    ∀ j : Nat, (∀ i, j ≤ i → s i = s' i) →
      sentOfChunks d s cs j = sentOfChunks d s' cs j := by
  induction cs with
  | nil => intro j _; rfl
  | cons c cs ih =>
    intro j h
    simp only [sentOfChunks]
    rw [ih (j + 1) (fun i hi => h i (by omega))]
    have hc : chunkSent d s j = chunkSent d s' j := by
      simp only [chunkSent, h j (le_refl j)]
    rw [hc]

theorem failedOfChunks_congr (d : Bool) (s s' : Nat → BatchCallResult)
    (cs : List (List String)) :
    ∀ j : Nat, (∀ i, j ≤ i → s i = s' i) →
      failedOfChunks d s cs j = failedOfChunks d s' cs j := by
  induction cs with
  | nil => intro j _; rfl
  | cons c cs ih =>
    intro j h
    simp only [failedOfChunks]
    rw [ih (j + 1) (fun i hi => h i (by omega))]
    have hc : chunkSent d s j = chunkSent d s' j := by
      simp only [chunkSent, h j (le_refl j)]
    rw [hc]

theorem chunks_flip (s s' : Nat → BatchCallResult) (k : Nat)
    (hagree : ∀ j, j ≠ k → s j = s' j)
    (hs : chunkSent false s k = false) (hs' : chunkSent false s' k = true)
    (cs : List (List String)) :
    ∀ j : Nat, j ≤ k → k < j + cs.length →
      failedOfChunks false s cs j
          = failedOfChunks false s' cs j + (cs.getD (k - j) []).length ∧
        sentOfChunks false s cs j + (cs.getD (k - j) []).length
          = sentOfChunks false s' cs j := by
  induction cs with
  | nil =>
    intro j _ h2
    simp only [List.length_nil] at h2
    omega
  | cons c cs ih =>
    intro j h1 h2
    by_cases hjk : j = k
    · subst hjk
      have ht : failedOfChunks false s cs (j + 1) = failedOfChunks false s' cs (j + 1) :=
        failedOfChunks_congr false s s' cs (j + 1) (fun i hi => hagree i (by omega))
      have ht2 : sentOfChunks false s cs (j + 1) = sentOfChunks false s' cs (j + 1) :=
        sentOfChunks_congr false s s' cs (j + 1) (fun i hi => hagree i (by omega))
      simp only [failedOfChunks, sentOfChunks, Nat.sub_self, List.getD_cons_zero]
      simp [hs, hs']
      omega
    · have hlt : j < k := Nat.lt_of_le_of_ne h1 hjk
      have hhead : chunkSent false s j = chunkSent false s' j := by
        simp only [chunkSent, hagree j hjk]
      have hsub : k - j = (k - (j + 1)) + 1 := by omega
      have hih := ih (j + 1) (by omega) (by simp only [List.length_cons] at h2; omega)
      simp only [failedOfChunks, sentOfChunks, hhead, hsub, List.getD_cons_succ]
      omega

theorem fetchAllEmailsGo_succ (src : Nat → Except String (Option (List User)))
    (fuel page : Nat) (acc : List String) (reqs : List Nat) :
    fetchAllEmailsGo src (fuel + 1) page acc reqs =
      match src page with
      | Except.error msg =>
        some { result := Except.error
                 ("Supabase auth fetch failed at page " ++ toString page ++ ": " ++ msg)
               requests := reqs ++ [page] }
      | Except.ok none => some { result := Except.ok acc, requests := reqs ++ [page] }
      | Except.ok (some users) =>
        if users.length = 0 then
          some { result := Except.ok acc, requests := reqs ++ [page] }
        else
          if users.length < perPage then
            some { result := Except.ok (acc ++ extractEmails users)
                   requests := reqs ++ [page] }
          else
            fetchAllEmailsGo src fuel (page + 1) (acc ++ extractEmails users)
              (reqs ++ [page]) := rfl

theorem fetchAllEmailsGo_spec (ps : List (List User)) :
    ∀ (src : Nat → Except String (Option (List User))) (page : Nat)
      (acc : List String) (reqs : List Nat),
      (∀ i, src (page + i) = Except.ok (some (ps.getD i []))) →
      fetchAllEmailsGo src (ps.length + 1) page acc reqs =
        some { result := Except.ok (acc ++ ((specFetchedPages ps).map extractEmails).flatten)
               requests := reqs ++ List.range' page (specRequests ps) } := by
  induction ps with
  | nil =>
    intro src page acc reqs h
    have h0 : src page = Except.ok (some ([] : List User)) := by simpa using h 0
    simp [fetchAllEmailsGo, h0, specFetchedPages, specRequests, extractEmails]
  | cons p ps ih =>
    intro src page acc reqs h
    have h0 : src page = Except.ok (some p) := by simpa using h 0
    by_cases hz : p.length = 0
    · simp only [List.length_cons, fetchAllEmailsGo, h0]
      simp [hz, specFetchedPages, specRequests]
    · by_cases hshort : p.length < perPage
      · simp only [List.length_cons, fetchAllEmailsGo, h0]
        simp [hz, hshort, specFetchedPages, specRequests]
      · have hrec := ih src (page + 1) (acc ++ extractEmails p) (reqs ++ [page])
          (fun i => by
            have hi := h (i + 1)
            rwa [show page + (i + 1) = page + 1 + i by omega, List.getD_cons_succ] at hi)
        simp only [List.length_cons]
        rw [fetchAllEmailsGo_succ, h0]
        simp only [if_neg hz, if_neg hshort]
        rw [hrec]
        simp only [specFetchedPages, specRequests, if_neg hz, if_neg hshort,
          List.map_cons, List.flatten_cons, Nat.add_comm 1 (specRequests ps),
          List.range'_succ, List.append_assoc, List.cons_append, List.nil_append]

theorem fetchAllEmailsGo_error (k : Nat) :
    ∀ (src : Nat → Except String (Option (List User))) (page : Nat) (msg : String)
      (acc : List String) (reqs : List Nat) (fuel : Nat),
      (∀ i, i < k → ∃ us, src (page + i) = Except.ok (some us) ∧ us.length = perPage) →
      src (page + k) = Except.error msg →
      k + 1 ≤ fuel →
      fetchAllEmailsGo src fuel page acc reqs =
        some { result := Except.error
                 ("Supabase auth fetch failed at page " ++ toString (page + k) ++ ": " ++ msg)
               requests := reqs ++ List.range' page (k + 1) } := by
  induction k with
  | zero =>
    intro src page msg acc reqs fuel _ herr hfuel
    obtain ⟨m, rfl⟩ : ∃ m, fuel = m + 1 := ⟨fuel - 1, by omega⟩
    rw [fetchAllEmailsGo_succ]
    simp only [Nat.add_zero] at herr
    rw [herr]
    simp
  | succ kk ih =>
    intro src page msg acc reqs fuel hfull herr hfuel
    obtain ⟨m, rfl⟩ : ∃ m, fuel = m + 1 := ⟨fuel - 1, by omega⟩
    obtain ⟨us, hus, hlen⟩ := hfull 0 (by omega)
    simp only [Nat.add_zero] at hus
    rw [fetchAllEmailsGo_succ, hus]
    simp only [if_neg (by simp [hlen, perPage] : ¬us.length = 0),
      if_neg (by simp [hlen] : ¬us.length < perPage)]
    have hrec := ih src (page + 1) msg (acc ++ extractEmails us) (reqs ++ [page]) m
      (fun i hi => by
        obtain ⟨u2, h2, l2⟩ := hfull (i + 1) (by omega)
        exact ⟨u2, by rwa [show page + 1 + i = page + (i + 1) by omega], l2⟩)
      (by rwa [show page + 1 + kk = page + (kk + 1) by omega])
      (by omega)
    rw [hrec]
    rw [show page + 1 + kk = page + (kk + 1) by omega]
    conv_rhs => rw [List.range'_succ]
    simp

/-- C1: for every recipient list, after `sendBatches` completes the final
counters satisfy `sent + failed` = total recipient count, and each
chunk's whole length is accounted to exactly one of the two counters
(`sent` collects exactly the chunks whose call succeeded — or every
chunk in dry-run mode — and `failed` exactly the others): a chunk's
outcome is all-or-nothing, with no partial accounting. -/
theorem sendBatches_accounting (f : String) (d : Bool)
    (s : Nat → BatchCallResult) (emails : List String) :
    (sendBatches f d s emails).sent + (sendBatches f d s emails).failed
        = emails.length ∧
      (sendBatches f d s emails).sent
        = sentOfChunks d s (chunksOf BATCH_SIZE emails) 0 ∧
      (sendBatches f d s emails).failed
        = failedOfChunks d s (chunksOf BATCH_SIZE emails) 0 :=
  ⟨sendBatchesGo_sum f d s emails.length emails 0 (le_refl _),
   sendBatchesGo_sent_eq f d s emails.length emails 0,
   sendBatchesGo_failed_eq f d s emails.length emails 0⟩

/-- C2: the dispatcher partitions the recipient list into exactly
`⌈L / BATCH_SIZE⌉` consecutive chunks, each of size at most
`BATCH_SIZE`, all but the last of size exactly `BATCH_SIZE`, whose
concatenation in order is the original list; in normal mode the batch
calls issued are exactly these chunks, rendered in order. -/
theorem sendBatches_partition (f : String) (s : Nat → BatchCallResult)
    (emails : List String) :
    (sendBatches f false s emails).calls
        = (chunksOf BATCH_SIZE emails).map (fun c => c.map (buildEmail f)) ∧
      (chunksOf BATCH_SIZE emails).length
        = (emails.length + (BATCH_SIZE - 1)) / BATCH_SIZE ∧
      ((chunksOf BATCH_SIZE emails).all fun c => decide (c.length ≤ BATCH_SIZE)) = true ∧
      (((chunksOf BATCH_SIZE emails).dropLast).all
          fun c => decide (c.length = BATCH_SIZE)) = true ∧
      (chunksOf BATCH_SIZE emails).flatten = emails :=
  ⟨sendBatchesGo_calls_eq f s emails.length emails 0,
   chunksOfGo_length emails.length emails (le_refl _),
   chunksOfGo_size_le emails.length emails,
   chunksOfGo_dropLast_full emails.length emails (le_refl _),
   chunksOfGo_flatten BATCH_SIZE emails.length emails (le_refl _)⟩

/-- C5: in dry-run mode `sendBatches` issues no call to the external
sender, the final `failed` counter is 0, and every address of every
chunk is counted as sent. -/
theorem sendBatches_dry_run (f : String) (s : Nat → BatchCallResult)
    (emails : List String) :
    sendBatches f true s emails
      = { sent := emails.length, failed := 0, calls := [], pauses := 0 } :=
  sendBatchesGo_dry f s emails.length emails 0 (le_refl _)

/-- C9: `buildEmail` produces a complete message carrying the configured
sender address, the given recipient address, the fixed subject line and
the fixed body template; two messages built for different recipients
agree on every field except the recipient address. -/
theorem buildEmail_template (f a b : String) :
    (buildEmail f a).fromAddr = f ∧
      (buildEmail f a).toAddr = a ∧
      (buildEmail f a).subject = "hi from jia :3" ∧
      (buildEmail f a).subject = (buildEmail f b).subject ∧
      (buildEmail f a).html = (buildEmail f b).html ∧
      (buildEmail f a).fromAddr = (buildEmail f b).fromAddr :=
  ⟨rfl, rfl, rfl, rfl, rfl, rfl⟩

set_option maxRecDepth 8192 in
/-- C6 (amended): in normal mode the dispatcher pauses exactly once after
each chunk except the last — `n - 1` pauses for `n` chunks, regardless
of chunk outcomes — and 250 recipients yield 3 batches of sizes
[100, 100, 50] with exactly 2 pauses; in simulation mode, however, the
dry-run branch `continue`s past the pause, so no inter-batch pause is
performed at all. -/
theorem sendBatches_pauses (f : String) (s : Nat → BatchCallResult)
    (emails : List String) :
    (sendBatches f false s emails).pauses
        = (chunksOf BATCH_SIZE emails).length - 1 ∧
      (sendBatches f true s emails).pauses = 0 ∧
      (chunksOf BATCH_SIZE (List.replicate 250 "x")).map List.length
        = [100, 100, 50] ∧
      (sendBatches f false s (List.replicate 250 "x")).pauses = 2 := by
  refine ⟨sendBatchesGo_pauses f s emails.length emails 0 (le_refl _), ?_, ?_, ?_⟩
  · rw [sendBatches, sendBatchesGo_dry f s emails.length emails 0 (le_refl _)]
  · rfl
  · rw [sendBatches, show (List.replicate 250 "x").length = 250 from by simp]
    rw [sendBatchesGo_pauses f s 250 (List.replicate 250 "x") 0 (by simp)]
    rfl

set_option maxRecDepth 8192 in
/-- C6 counterexample: the claim as stated asserts `n - 1` inter-batch
pauses in simulation mode as well; but on 250 recipients (3 chunks) a
dry run performs 0 pauses, not 2 — the dry-run branch skips the pause. -/
theorem sendBatches_pauses_cex :
    (sendBatches "from@example.com" true (fun _ => BatchCallResult.ok)
        (List.replicate 250 "x")).pauses = 0 ∧
      (chunksOf BATCH_SIZE (List.replicate 250 "x")).length = 3 :=
  ⟨rfl, rfl⟩

/-- C4: if the sender reports a structured error or raises a fault for the
batch call of chunk `k`, then exactly the recipients of chunk `k` move
from `sent` to `failed` relative to a run whose chunk `k` succeeds,
with all other chunks' outcomes equal; the sequence of batch calls is
still every chunk exactly once in order (no retry of chunk `k`,
processing continues with chunk `k + 1`), and the pauses are
unaffected. -/
theorem sendBatches_error_scoped (f : String) (emails : List String)
    (s s' : Nat → BatchCallResult) (k : Nat)
    (hk : k < (chunksOf BATCH_SIZE emails).length)
    (herr : s k ≠ BatchCallResult.ok)
    (hok : s' k = BatchCallResult.ok)
    (hagree : ∀ j, j ≠ k → s j = s' j) :
    (sendBatches f false s emails).failed
        = (sendBatches f false s' emails).failed
            + ((chunksOf BATCH_SIZE emails).getD k []).length ∧
      (sendBatches f false s emails).sent
          + ((chunksOf BATCH_SIZE emails).getD k []).length
        = (sendBatches f false s' emails).sent ∧
      (sendBatches f false s emails).calls
        = (chunksOf BATCH_SIZE emails).map (fun c => c.map (buildEmail f)) ∧
      (sendBatches f false s emails).pauses
        = (sendBatches f false s' emails).pauses := by
  have hcs : chunkSent false s k = false := by
    simp only [chunkSent, Bool.false_or]
    cases hv : s k
    · exact absurd hv herr
    · rfl
    · rfl
  have hcs' : chunkSent false s' k = true := by
    simp only [chunkSent, Bool.false_or, hok]
  have hflip := chunks_flip s s' k hagree hcs hcs' (chunksOf BATCH_SIZE emails) 0
    (Nat.zero_le k) (by simpa using hk)
  simp only [Nat.sub_zero] at hflip
  refine ⟨?_, ?_, sendBatchesGo_calls_eq f s emails.length emails 0, ?_⟩
  · rw [sendBatches, sendBatchesGo_failed_eq f false s emails.length emails 0]
    rw [sendBatches, sendBatchesGo_failed_eq f false s' emails.length emails 0]
    exact hflip.1
  · rw [sendBatches, sendBatchesGo_sent_eq f false s emails.length emails 0]
    rw [sendBatches, sendBatchesGo_sent_eq f false s' emails.length emails 0]
    exact hflip.2
  · rw [sendBatches, sendBatchesGo_pauses f s emails.length emails 0 (le_refl _)]
    rw [sendBatches, sendBatchesGo_pauses f s' emails.length emails 0 (le_refl _)]

/-- C4 witness: a three-recipient list (one chunk) whose only batch call
errors, against the same run with a succeeding sender. -/
theorem sendBatches_error_scoped_witness :
    (sendBatches "from@example.com" false
          (fun i => if i = 0 then BatchCallResult.apiError "boom" else BatchCallResult.ok)
          ["r1@example.com", "r2@example.com", "r3@example.com"]).failed
        = (sendBatches "from@example.com" false (fun _ => BatchCallResult.ok)
              ["r1@example.com", "r2@example.com", "r3@example.com"]).failed
            + ((chunksOf BATCH_SIZE
                  ["r1@example.com", "r2@example.com", "r3@example.com"]).getD 0 []).length ∧
      (sendBatches "from@example.com" false
            (fun i => if i = 0 then BatchCallResult.apiError "boom" else BatchCallResult.ok)
            ["r1@example.com", "r2@example.com", "r3@example.com"]).sent
          + ((chunksOf BATCH_SIZE
                ["r1@example.com", "r2@example.com", "r3@example.com"]).getD 0 []).length
        = (sendBatches "from@example.com" false (fun _ => BatchCallResult.ok)
            ["r1@example.com", "r2@example.com", "r3@example.com"]).sent ∧
      (sendBatches "from@example.com" false
            (fun i => if i = 0 then BatchCallResult.apiError "boom" else BatchCallResult.ok)
            ["r1@example.com", "r2@example.com", "r3@example.com"]).calls
        = (chunksOf BATCH_SIZE ["r1@example.com", "r2@example.com", "r3@example.com"]).map
            (fun c => c.map (buildEmail "from@example.com")) ∧
      (sendBatches "from@example.com" false
            (fun i => if i = 0 then BatchCallResult.apiError "boom" else BatchCallResult.ok)
            ["r1@example.com", "r2@example.com", "r3@example.com"]).pauses
        = (sendBatches "from@example.com" false (fun _ => BatchCallResult.ok)
            ["r1@example.com", "r2@example.com", "r3@example.com"]).pauses :=
  sendBatches_error_scoped "from@example.com"
    ["r1@example.com", "r2@example.com", "r3@example.com"]
    (fun i => if i = 0 then BatchCallResult.apiError "boom" else BatchCallResult.ok)
    (fun _ => BatchCallResult.ok) 0 (by decide) (by decide) rfl
    (fun j hj => by simp [hj])

/-- C3: against a directory source given by a finite page sequence,
`fetchAllEmails` requests pages 1, 2, … (one request per successful
call), stops exactly at the first page that is empty or shorter than
`perPage`, and returns the concatenation, in page order and
within-page order, of the non-empty email fields of every fetched
page. -/
theorem fetchAllEmails_pagination (ps : List (List User)) :
    fetchAllEmails (srcOfPages ps) (ps.length + 1) =
      some { result := Except.ok (((specFetchedPages ps).map extractEmails).flatten)
             requests := List.range' 1 (specRequests ps) } := by
  have h := fetchAllEmailsGo_spec ps (srcOfPages ps) 1 [] []
    (fun i => by
      rw [srcOfPages, show 1 + i - 1 = i by omega])
  simpa [fetchAllEmails] using h

/-- C7: if the directory source reports an error at page `p` (all earlier
pages being full), `fetchAllEmails` aborts with a fatal error whose
message identifies page `p`, returns no partial email list, requests
page `p` exactly once with no retry, and the whole run exits with
status 1, never invoking the dispatcher and reporting no sent/failed
summary. -/
theorem fetchAllEmails_page_error (f : String) (d : Bool)
    (s : Nat → BatchCallResult)
    (src : Nat → Except String (Option (List User))) (p : Nat) (msg : String)
    (fuel : Nat) (hp : 1 ≤ p) (hfuel : p ≤ fuel)
    (hfull : ∀ q, 1 ≤ q → q < p →
      ∃ us, src q = Except.ok (some us) ∧ us.length = perPage)
    (herr : src p = Except.error msg) :
    fetchAllEmails src fuel =
        some { result := Except.error
                 ("Supabase auth fetch failed at page " ++ toString p ++ ": " ++ msg)
               requests := List.range' 1 p } ∧
      mainRun f d s src fuel
        = some { exitCode := 1, dispatched := false, summary := none } := by
  have hgo := fetchAllEmailsGo_error (p - 1) src 1 msg [] [] fuel
    (fun i hi => hfull (1 + i) (by omega) (by omega))
    (by rw [show 1 + (p - 1) = p by omega]; exact herr)
    (by omega)
  rw [show 1 + (p - 1) = p by omega] at hgo
  rw [show p - 1 + 1 = p by omega] at hgo
  simp only [List.nil_append] at hgo
  have hfa : fetchAllEmails src fuel =
      some { result := Except.error
               ("Supabase auth fetch failed at page " ++ toString p ++ ": " ++ msg)
             requests := List.range' 1 p } := by
    rw [fetchAllEmails]
    exact hgo
  refine ⟨hfa, ?_⟩
  simp only [mainRun, hfa]

set_option maxRecDepth 8192 in
/-- C7 witness: a source that errors on page 3 after two full pages. -/
theorem fetchAllEmails_page_error_witness :
    fetchAllEmails
        (fun q => if q = 3 then Except.error "boom"
          else Except.ok (some (List.replicate 1000 { email := some "u@example.com" }))) 3 =
        some { result := Except.error
                 ("Supabase auth fetch failed at page " ++ toString (3 : Nat) ++ ": " ++ "boom")
               requests := List.range' 1 3 } ∧
      mainRun "from@example.com" false (fun _ => BatchCallResult.ok)
          (fun q => if q = 3 then Except.error "boom"
            else Except.ok (some (List.replicate 1000 { email := some "u@example.com" }))) 3
        = some { exitCode := 1, dispatched := false, summary := none } :=
  fetchAllEmails_page_error "from@example.com" false (fun _ => BatchCallResult.ok)
    (fun q => if q = 3 then Except.error "boom"
      else Except.ok (some (List.replicate 1000 { email := some "u@example.com" })))
    3 "boom" 3 (by omega) (by omega)
    (fun q h1 h2 =>
      ⟨List.replicate 1000 { email := some "u@example.com" },
       by simp only [if_neg (show ¬q = 3 by omega)],
       by simp [perPage]⟩)
    rfl

/-- C8 (amended): the process exits with status 1 when the directory
fetch fails, and with status 0 otherwise; when at least one email
address is found, the final sent/failed summary is printed, but a run
that finds zero addresses returns early with exit status 0 and no
sent/failed summary. -/
theorem mainRun_exit (f : String) (d : Bool) (s : Nat → BatchCallResult)
    (src : Nat → Except String (Option (List User))) (fuel : Nat) :
    (∀ msg reqs, fetchAllEmails src fuel
          = some { result := Except.error msg, requests := reqs } →
        mainRun f d s src fuel
          = some { exitCode := 1, dispatched := false, summary := none }) ∧
      (∀ reqs, fetchAllEmails src fuel
          = some { result := Except.ok [], requests := reqs } →
        mainRun f d s src fuel
          = some { exitCode := 0, dispatched := false, summary := none }) ∧
      (∀ e es reqs, fetchAllEmails src fuel
          = some { result := Except.ok (e :: es), requests := reqs } →
        mainRun f d s src fuel
          = some { exitCode := 0, dispatched := true,
                   summary := some ((sendBatches f d s (e :: es)).sent,
                     (sendBatches f d s (e :: es)).failed) }) := by
  refine ⟨?_, ?_, ?_⟩
  · intro msg reqs h
    simp [mainRun, h]
  · intro reqs h
    simp [mainRun, h]
  · intro e es reqs h
    simp [mainRun, h]

/-- C8 counterexample: a run that finds zero email addresses exits with
status 0 but prints no sent/failed summary, contrary to the claim that
a summary of the counts is printed for all successful fetches. -/
theorem mainRun_zero_emails_cex :
    mainRun "from@example.com" false (fun _ => BatchCallResult.ok)
        (fun _ => Except.ok (some ([] : List User))) 1
      = some { exitCode := 0, dispatched := false, summary := none } := rfl

/-- C8 witness: a failing fetch yields exit status 1 with no summary. -/
theorem mainRun_exit_witness :
    mainRun "from@example.com" true (fun _ => BatchCallResult.ok)
        (fun _ => Except.error "down") 1
      = some { exitCode := 1, dispatched := false, summary := none } :=
  (mainRun_exit "from@example.com" true (fun _ => BatchCallResult.ok)
      (fun _ => Except.error "down") 1).1
    ("Supabase auth fetch failed at page " ++ toString (1 : Nat) ++ ": " ++ "down") [1] rfl

/-- C10: on the empty recipient list `sendBatches` returns zero counters,
makes no sender call and performs no pause; and `mainRun` never invokes
the dispatcher when the fetched email list is empty, returning early
instead. -/
theorem sendBatches_empty (f : String) (d : Bool) (s : Nat → BatchCallResult) :
    sendBatches f d s [] = { sent := 0, failed := 0, calls := [], pauses := 0 } ∧
      ∀ (src : Nat → Except String (Option (List User))) (fuel : Nat) (reqs : List Nat),
        fetchAllEmails src fuel = some { result := Except.ok [], requests := reqs } →
        mainRun f d s src fuel
          = some { exitCode := 0, dispatched := false, summary := none } := by
  refine ⟨rfl, ?_⟩
  intro src fuel reqs h
  simp [mainRun, h]

/-- C10 witness: a source whose first page is empty. -/
theorem sendBatches_empty_witness :
    mainRun "me@example.com" false (fun _ => BatchCallResult.ok)
        (fun _ => Except.ok (some ([] : List User))) 2
      = some { exitCode := 0, dispatched := false, summary := none } :=
  (sendBatches_empty "me@example.com" false (fun _ => BatchCallResult.ok)).2
    (fun _ => Except.ok (some ([] : List User))) 2 [1] rfl
